import Mathlib

/-!
Verification of the ts_authorize authorization-request processing engine.

Python strings are modelled as lists of characters (`PyStr`); Python
`str.split(",")`, `str.strip()` and the two validation regexes are embedded
character by character.  Machinery that performs I/O (DDS remotes, HTTP) is
modelled by passing the observable outcomes (per-target command results, HTTP
responses) as explicit oracle parameters, and the network side effects are
recorded in explicit event traces.

Sources embedded here:
- python/lsst/ts/authorize/utils.py (check_csc, check_user_host)
- python/lsst/ts/authorize/authorize.py and
  python/lsst/ts/authorize/handler/base_authorize_handler.py
  (validate_request, process_authorize_request, do_requestAuthorization)
- python/lsst/ts/authorize/handler/auto_authorize_handler.py
  (handle_authorize_request)
- python/lsst/ts/authorize/handler/rest_authorize_handler.py
  (authenticate, process_approved_and_unprocessed_auth_requests, start, stop)
-/

/-- A Python `str`, modelled as its list of characters. -/
abbrev PyStr := List Char

/-- Python `str.strip()` whitespace set (the ASCII whitespace characters
recognised by `str.isspace` that occur in practice): space, tab, newline,
carriage return, vertical tab, form feed. -/
def pyIsSpace (c : Char) : Bool :=
  c = ' ' || c = '\t' || c = '\n' || c = '\r' || c = '\x0b' || c = '\x0c'

/-- Drop leading whitespace. -/
def pyStripLeft : PyStr → PyStr
  | [] => []
  | c :: cs => if pyIsSpace c then pyStripLeft cs else c :: cs

/-- Python `s.strip()`: drop leading and trailing whitespace. -/
def pyStrip (s : PyStr) : PyStr :=
  ((pyStripLeft ((pyStripLeft s).reverse)).reverse)

/-- Python `s.split(",")`: split at every comma, keeping empty segments.
`"".split(",")` is `[""]`; the result always has at least one element. -/
def splitComma : PyStr → List PyStr
  | [] => [[]]
  | c :: cs =>
    let rest := splitComma cs
    if c = ',' then [] :: rest
    else
      match rest with
      | r :: rs => (c :: r) :: rs
      | [] => [[c]]

theorem splitComma_ne_nil (s : PyStr) : splitComma s ≠ [] := by
  induction s with
  | nil => simp [splitComma]
  | cons c cs ih =>
    simp only [splitComma]
    split
    · simp
    · cases h : splitComma cs with
      | nil => simp
      | cons r rs => simp [h]

/-- ASCII `[a-zA-Z]`. -/
def charIsAlpha (c : Char) : Bool :=
  (97 ≤ c.toNat && c.toNat ≤ 122) || (65 ≤ c.toNat && c.toNat ≤ 90)

/-- ASCII `[0-9]` (Python `\d` restricted to ASCII). -/
def charIsDigit (c : Char) : Bool :=
  48 ≤ c.toNat && c.toNat ≤ 57

/-- The regex class `[_A-Za-z0-9]` of CSC_NAME_INDEX_RE. -/
def charIsNameChar (c : Char) : Bool :=
  charIsAlpha c || charIsDigit c || c = '_'

/-- The regex class `[-._A-Za-z0-9]` of USER_HOST_RE. -/
def charIsUserChar (c : Char) : Bool :=
  charIsAlpha c || charIsDigit c || c = '_' || c = '-' || c = '.'

/-- One or more ASCII digits (`\d+` followed by end of input). -/
def allDigits1 : PyStr → Bool
  | [] => false
  | c :: cs => charIsDigit c && allDigitsRest cs
where
  allDigitsRest : PyStr → Bool
    | [] => true
    | c :: cs => charIsDigit c && allDigitsRest cs

/-- Tail of CSC_NAME_INDEX_RE after the first character:
`[_A-Za-z0-9]*(:\d+)?` up to the end of the string. -/
def cscTail : PyStr → Bool
  | [] => true
  | ':' :: ds => allDigits1 ds
  | c :: cs => charIsNameChar c && cscTail cs

/-- Full match of `[a-zA-Z][_A-Za-z0-9]*(:\d+)?` against the whole string. -/
def cscCore : PyStr → Bool
  | [] => false
  | c :: cs => charIsAlpha c && cscTail cs

/-- Python `re.match` with a pattern anchored by `^...$`: the pattern must
consume the whole string, or the whole string up to a single final newline
(Python `$` also matches just before a trailing newline). -/
def pyFullMatch (core : PyStr → Bool) (s : PyStr) : Bool :=
  core s ||
    (match s.reverse with
     | '\n' :: r => core r.reverse
     | _ => false)

/-- utils.py CSC_NAME_INDEX_RE = `^[a-zA-Z][_A-Za-z0-9]*(:\d+)?$`,
as used by `re.match` in check_csc. -/
def cscNameIndexMatch (s : PyStr) : Bool :=
  pyFullMatch cscCore s

/-- Part of USER_HOST_RE after the leading `[a-zA-Z]`: `[-._A-Za-z0-9]*@`
followed by the host part. -/
def userAfterFirst : PyStr → Bool
  | [] => false
  | '@' :: cs => hostPart cs
  | c :: cs => charIsUserChar c && userAfterFirst cs
where
  hostPart : PyStr → Bool
    | [] => false
    | c :: cs => (charIsAlpha c || charIsDigit c) && hostTail cs
  hostTail : PyStr → Bool
    | [] => true
    | c :: cs => charIsUserChar c && hostTail cs

/-- Full match of `[a-zA-Z][-._A-Za-z0-9]*@[a-zA-Z0-9][-._A-Za-z0-9]*`. -/
def userHostCore : PyStr → Bool
  | [] => false
  | c :: cs => charIsAlpha c && userAfterFirst cs

/-- utils.py USER_HOST_RE = `^[a-zA-Z][-._A-Za-z0-9]*@[a-zA-Z0-9][-._A-Za-z0-9]*$`,
as used by `re.match` in check_user_host. -/
def userHostMatch (s : PyStr) : Bool :=
  pyFullMatch userHostCore s

/-- The exceptions validate_request can raise:
`salobj.ExpectedError("No CSCs specified in cscsToChange; command has no
effect.")`, `ValueError("Invalid CSC[:index]: ...")` from check_csc, and
`ValueError("Invalid user@host: ...")` from check_user_host. -/
inductive ValidationError where
  | noCscsSpecified : ValidationError
  | invalidCsc (csc : PyStr) : ValidationError
  | invalidUserHost (user : PyStr) : ValidationError
deriving DecidableEq

/-- Auxiliary loop for `dedupFirst`: keep elements not seen before. -/
def dedupFirstGo : List PyStr → List PyStr → List PyStr
  | [], _ => []
  | x :: xs, seen =>
    if x ∈ seen then dedupFirstGo xs seen else x :: dedupFirstGo xs (x :: seen)

/-- Deduplication keeping first occurrences.  A Python `set` built from a
list contains each distinct element once; its iteration order is
implementation-defined (hash based), so we determinize it here as the
first-occurrence order.  Claims that depend on the iteration order treat the
enumeration as adversarial instead (see the order counterexample below). -/
def dedupFirst (l : List PyStr) : List PyStr :=
  dedupFirstGo l []

/-- `{val.strip() for val in data.cscsToChange.split(",")}`
(authorize.py line 170 / base_authorize_handler.py line 143), as the
determinized enumeration of the Python set. -/
def cscsToCommand (s : PyStr) : List PyStr :=
  dedupFirst ((splitComma s).map pyStrip)

theorem cscsToCommand_ne_nil (s : PyStr) : cscsToCommand s ≠ [] := by
  unfold cscsToCommand dedupFirst
  cases h : (splitComma s).map pyStrip with
  | nil =>
    exact absurd (List.map_eq_nil_iff.mp h) (splitComma_ne_nil s)
  | cons y ys =>
    simp [dedupFirstGo]

/-- First element of the list failing the check, if any: models a Python
`for` loop that raises at the first invalid element. -/
def findFirstFail (p : PyStr → Bool) : List PyStr → Option PyStr
  | [] => none
  | x :: xs => if p x then findFirstFail p xs else some x

/-- The entries actually validated for the `authorizedUsers` /
`nonAuthorizedCSCs` field (authorize.py lines 179-191): nothing for the
empty string; otherwise the first character is dropped when it is `+` or
`-`, and the remaining string is split on commas with each entry
whitespace-stripped. -/
def checkedEntries : PyStr → List PyStr
  | [] => []
  | c :: cs =>
    (splitComma (if c = '+' || c = '-' then cs else c :: cs)).map pyStrip

/-- The users loop of validate_request: check each entry of
`checkedEntries` with check_user_host, raising at the first bad one. -/
def validateUsersField (s : PyStr) : Except ValidationError Unit :=
  match findFirstFail userHostMatch (checkedEntries s) with
  | some u => .error (.invalidUserHost u)
  | none => .ok ()

/-- The nonAuthorizedCSCs loop of validate_request: check each entry of
`checkedEntries` with check_csc, raising at the first bad one. -/
def validateCscsField (s : PyStr) : Except ValidationError Unit :=
  match findFirstFail cscNameIndexMatch (checkedEntries s) with
  | some c => .error (.invalidCsc c)
  | none => .ok ()

/-- validate_request (authorize.py lines 148-193, identical in
base_authorize_handler.py lines 121-166): build the set of stripped
comma-separated targets, raise ExpectedError if that set is empty, check
each target with check_csc, then check the two optional fields, and return
the target set. -/
def validateRequest (authorizedUsers cscsToChange nonAuthorizedCSCs : PyStr) :
    Except ValidationError (List PyStr) :=
  let cscs := cscsToCommand cscsToChange
  if cscs = [] then .error .noCscsSpecified
  else
    match findFirstFail cscNameIndexMatch cscs with
    | some c => .error (.invalidCsc c)
    | none =>
      match validateUsersField authorizedUsers with
      | .error e => .error e
      | .ok _ =>
        match validateCscsField nonAuthorizedCSCs with
        | .error e => .error e
        | .ok _ => .ok cscs


/-- The executionStatus enum of handler_utils.py (FAILED / PENDING /
SUCCESSFUL). -/
inductive ExecutionStatus where
  | failed : ExecutionStatus
  | pending : ExecutionStatus
  | successful : ExecutionStatus
deriving DecidableEq

/-- Observable events of the engine.  `attempt` is the construction of the
salobj Remote plus the cmd_setAuthList call for one target; `setOk` /
`setFailed` is its outcome (logged at lines 110-117 of
base_authorize_handler.py); `putExecute` is the PUT to the REST server's
`{id}/execute` endpoint; the three `log...Mismatch` events are the
`self.log.error` calls of rest_authorize_handler.py lines 236-252. -/
inductive Event where
  | attempt (csc : PyStr) : Event
  | setOk (csc : PyStr) : Event
  | setFailed (csc : PyStr) (msg : PyStr) : Event
  | putExecute (id : Nat) (status : ExecutionStatus) (message : PyStr) : Event
  | logIdMismatch (id : Nat) : Event
  | logStatusMismatch (id : Nat) : Event
  | logMessageMismatch (id : Nat) : Event
deriving DecidableEq

/-- The DispatchOutcome: `csc_failed_messages` (association list from target
to AckError message, in attempt order) and `cscs_succeeded`. -/
structure DispatchOutcome where
  failed : List (PyStr × PyStr)
  succeeded : List PyStr
deriving DecidableEq

/-- The per-target loop of process_authorize_request
(base_authorize_handler.py lines 96-117).  The oracle `outcome` gives the
observable result of `cmd_setAuthList.set_start` for each target: `none` for
success, `some msg` for a raised `salobj.AckError` (which covers both
target-reported rejection and, via its subclass AckTimeoutError, timeout).
Only AckError is caught; the loop body is total on both outcomes, records
failures in `csc_failed_messages`, and continues with the next target. -/
def processAuthTargets (outcome : PyStr → Option PyStr) :
    List PyStr → List (PyStr × PyStr) × List Event
  | [] => ([], [])
  | t :: ts =>
    let r := processAuthTargets outcome ts
    match outcome t with
    | none => (r.1, .attempt t :: .setOk t :: r.2)
    | some m => ((t, m) :: r.1, .attempt t :: .setFailed t m :: r.2)

/-- process_authorize_request for an already-validated target enumeration:
run the per-target loop, then
`cscs_succeeded = cscs_to_command - csc_failed_messages.keys()`
(base_authorize_handler.py line 119).  Returns the outcome together with the
trace of per-target events. -/
def processAuthorizeRequest (targets : List PyStr) (outcome : PyStr → Option PyStr) :
    DispatchOutcome × List Event :=
  let r := processAuthTargets outcome targets
  ({ failed := r.1,
     succeeded := targets.filter (fun t => decide (t ∉ r.1.map Prod.fst)) },
   r.2)

/-- The targets attempted in a trace, in order. -/
def attemptedCscs (evs : List Event) : List PyStr :=
  evs.filterMap (fun e =>
    match e with
    | .attempt c => some c
    | _ => none)

theorem processAuthTargets_failed (outcome : PyStr → Option PyStr)
    (ts : List PyStr) :
    (processAuthTargets outcome ts).1 =
      ts.filterMap (fun t => (outcome t).map (fun m => (t, m))) := by
  induction ts with
  | nil => simp [processAuthTargets]
  | cons t ts ih =>
    simp only [processAuthTargets]
    cases h : outcome t <;> simp [h, ih]

theorem processAuthTargets_attempts (outcome : PyStr → Option PyStr)
    (ts : List PyStr) :
    attemptedCscs (processAuthTargets outcome ts).2 = ts := by
  induction ts with
  | nil => simp [processAuthTargets, attemptedCscs]
  | cons t ts ih =>
    simp only [processAuthTargets]
    cases h : outcome t <;> simpa [attemptedCscs, h] using ih

theorem processAuthTargets_failed_keys (outcome : PyStr → Option PyStr)
    (ts : List PyStr) :
    (processAuthTargets outcome ts).1.map Prod.fst =
      ts.filter (fun t => (outcome t).isSome) := by
  rw [processAuthTargets_failed]
  induction ts with
  | nil => simp
  | cons t ts ih =>
    cases h : outcome t <;> simp [h, ih]

/-- C1 (code bug in validate_request): for the empty target string and for
whitespace-only target strings, validate_request raises the
malformed-identifier error `ValueError("Invalid CSC[:index]: ''")`, not the
distinct `salobj.ExpectedError("No CSCs specified...")` promised by its own
docstring: `"".split(",")` is `[""]`, so the stripped set is the non-empty
`{""}` and the `if not cscs_to_command` branch is unreachable for every
input. -/
theorem validateUsersField_ne_noCscs (u : PyStr) :
    validateUsersField u ≠ .error .noCscsSpecified := by
  unfold validateUsersField
  cases h : findFirstFail userHostMatch (checkedEntries u) <;> simp

theorem validateCscsField_ne_noCscs (n : PyStr) :
    validateCscsField n ≠ .error .noCscsSpecified := by
  unfold validateCscsField
  cases h : findFirstFail cscNameIndexMatch (checkedEntries n) <;> simp

theorem validate_request_empty_targets_code_bug :
    validateRequest [] [] [] = .error (.invalidCsc []) ∧
    validateRequest [] "   ".data [] = .error (.invalidCsc []) ∧
    ∀ u c n, validateRequest u c n ≠ .error .noCscsSpecified := by
  refine ⟨rfl, rfl, fun u c n => ?_⟩
  unfold validateRequest
  rw [if_neg (cscsToCommand_ne_nil c)]
  cases h1 : findFirstFail cscNameIndexMatch (cscsToCommand c) with
  | some x => simp
  | none =>
    cases h2 : validateUsersField u with
    | error e =>
      intro hcontra
      have he : e = .noCscsSpecified := Except.error.inj hcontra
      exact validateUsersField_ne_noCscs u (by rw [h2, he])
    | ok _ =>
      cases h3 : validateCscsField n with
      | error e =>
        intro hcontra
        have he : e = .noCscsSpecified := Except.error.inj hcontra
        exact validateCscsField_ne_noCscs n (by rw [h3, he])
      | ok _ => simp

theorem processAuthorizeRequest_succeeded_mem (targets : List PyStr)
    (outcome : PyStr → Option PyStr) (t : PyStr) :
    t ∈ (processAuthorizeRequest targets outcome).1.succeeded ↔
      t ∈ targets ∧ outcome t = none := by
  unfold processAuthorizeRequest
  simp only [List.mem_filter, decide_eq_true_eq, processAuthTargets_failed_keys,
    List.mem_filter]
  constructor
  · rintro ⟨ht, hniff⟩
    refine ⟨ht, ?_⟩
    cases h : outcome t with
    | none => rfl
    | some m => exact absurd ⟨ht, by simp [h]⟩ hniff
  · rintro ⟨ht, hnone⟩
    exact ⟨ht, fun hmem => by simp [hnone] at hmem⟩

theorem processAuthorizeRequest_failed_keys_mem (targets : List PyStr)
    (outcome : PyStr → Option PyStr) (t : PyStr) :
    t ∈ (processAuthorizeRequest targets outcome).1.failed.map Prod.fst ↔
      t ∈ targets ∧ (outcome t).isSome := by
  unfold processAuthorizeRequest
  simp [processAuthTargets_failed_keys, List.mem_filter]

/-- C3: for every request whose validation succeeded, dispatch partitions
the validated target set: `cscs_succeeded` and the keys of
`csc_failed_messages` are disjoint and their union is `cscs_to_command`
(base_authorize_handler.py lines 89-119, in particular
`cscs_succeeded = cscs_to_command - csc_failed_messages.keys()`). -/
theorem dispatch_outcome_partitions_targets (u c n : PyStr)
    (targets : List PyStr) (outcome : PyStr → Option PyStr)
    (h : validateRequest u c n = .ok targets) :
    (∀ t, ¬(t ∈ (processAuthorizeRequest targets outcome).1.succeeded ∧
            t ∈ (processAuthorizeRequest targets outcome).1.failed.map Prod.fst)) ∧
    (∀ t, t ∈ targets ↔
      (t ∈ (processAuthorizeRequest targets outcome).1.succeeded ∨
       t ∈ (processAuthorizeRequest targets outcome).1.failed.map Prod.fst)) := by
  constructor
  · intro t ⟨hs, hf⟩
    rw [processAuthorizeRequest_succeeded_mem] at hs
    rw [processAuthorizeRequest_failed_keys_mem] at hf
    rw [hs.2] at hf
    exact absurd hf.2 (by simp)
  · intro t
    rw [processAuthorizeRequest_succeeded_mem, processAuthorizeRequest_failed_keys_mem]
    constructor
    · intro ht
      cases hout : outcome t with
      | none => exact Or.inl ⟨ht, rfl⟩
      | some m => exact Or.inr ⟨ht, by simp [hout]⟩
    · rintro (⟨ht, _⟩ | ⟨ht, _⟩) <;> exact ht

/-- Witness for C3 at a concrete validated request with one failing target. -/
theorem dispatch_outcome_partitions_targets_witness :
    ¬("Test:5".data ∈ (processAuthorizeRequest ["Test:5".data]
        (fun _ => some "timeout".data)).1.succeeded ∧
      "Test:5".data ∈ (processAuthorizeRequest ["Test:5".data]
        (fun _ => some "timeout".data)).1.failed.map Prod.fst) ∧
    ("Test:5".data ∈ ["Test:5".data] ↔
      ("Test:5".data ∈ (processAuthorizeRequest ["Test:5".data]
          (fun _ => some "timeout".data)).1.succeeded ∨
       "Test:5".data ∈ (processAuthorizeRequest ["Test:5".data]
          (fun _ => some "timeout".data)).1.failed.map Prod.fst)) :=
  ⟨(dispatch_outcome_partitions_targets [] "Test:5".data [] ["Test:5".data]
      (fun _ => some "timeout".data) rfl).1 _,
   (dispatch_outcome_partitions_targets [] "Test:5".data [] ["Test:5".data]
      (fun _ => some "timeout".data) rfl).2 _⟩

/-- C4: the dispatch loop of process_authorize_request attempts every
target in the enumeration regardless of earlier failures, records exactly
the failing targets with their AckError reasons in `csc_failed_messages`,
and is a total function of the per-target outcomes — a per-target failure
(timeout or target-reported rejection, both `salobj.AckError`) is caught at
lines 113-117 of base_authorize_handler.py and never aborts the loop. -/
theorem dispatcher_records_failures_and_continues (targets : List PyStr)
    (outcome : PyStr → Option PyStr) :
    attemptedCscs (processAuthorizeRequest targets outcome).2 = targets ∧
    (processAuthorizeRequest targets outcome).1.failed =
      targets.filterMap (fun t => (outcome t).map (fun m => (t, m))) :=
  ⟨processAuthTargets_attempts outcome targets,
   processAuthTargets_failed outcome targets⟩

/-- Amended C9: within one dispatch the targets are visited strictly
sequentially in the order of the given set enumeration, and that call order
depends only on the enumeration, not on the per-target outcomes.  The
enumeration itself is the iteration order of the Python set
`cscs_to_command`, which is hash-based and not fixed (see the
counterexample). -/
theorem dispatch_call_order_given_enumeration (enum : List PyStr)
    (o1 o2 : PyStr → Option PyStr) :
    attemptedCscs (processAuthorizeRequest enum o1).2 =
      attemptedCscs (processAuthorizeRequest enum o2).2 :=
  (processAuthTargets_attempts o1 enum).trans
    (processAuthTargets_attempts o2 enum).symm

/-- Counterexample to C9 as stated: the loop at line 96 of
base_authorize_handler.py iterates over the Python set `cscs_to_command`,
whose iteration order is unspecified (hash-based, varying with the
interpreter's hash seed).  Both of these lists are enumerations of the same
two-element validated target set, yet they give different setAuthList call
orders. -/
theorem dispatch_call_order_not_set_determined :
    List.Perm ["ATDome".data, "DIMM".data] ["DIMM".data, "ATDome".data] ∧
    attemptedCscs (processAuthorizeRequest ["ATDome".data, "DIMM".data]
        (fun _ => none)).2 ≠
      attemptedCscs (processAuthorizeRequest ["DIMM".data, "ATDome".data]
        (fun _ => none)).2 :=
  ⟨List.Perm.swap "DIMM".data "ATDome".data [], by decide⟩

/-- The errors handle_authorize_request of AutoAuthorizeHandler can raise:
a validation error from validate_request, or the RuntimeError of lines
63-68 of auto_authorize_handler.py (the spec's PartialFailure), whose
message carries the set of failed CSCs and the set
`cscs_to_command - cscs_failed_to_set_auth_list` of succeeded CSCs. -/
inductive AutoHandlerError where
  | validation (e : ValidationError) : AutoHandlerError
  | setAuthListFailures (failedCscs : List PyStr) (succeededCscs : List PyStr) :
      AutoHandlerError
deriving DecidableEq

/-- The `cscs_failed_to_set_auth_list` accumulation of the loop at lines
41-61 of auto_authorize_handler.py: collect the targets whose
cmd_setAuthList call raised `salobj.AckError`, in enumeration order. -/
def autoFailedCscs (outcome : PyStr → Option PyStr) : List PyStr → List PyStr
  | [] => []
  | t :: ts =>
    match outcome t with
    | none => autoFailedCscs outcome ts
    | some _ => t :: autoFailedCscs outcome ts

/-- handle_authorize_request of AutoAuthorizeHandler
(auto_authorize_handler.py lines 34-68, same logic as
do_requestAuthorization in authorize.py lines 102-146): validate, send
setAuthList to every target collecting failures, and raise iff the failed
set is non-empty, with the error carrying both the failed set and the
succeeded set. -/
def autoHandleAuthorizeRequest
    (authorizedUsers cscsToChange nonAuthorizedCSCs : PyStr)
    (outcome : PyStr → Option PyStr) : Except AutoHandlerError Unit :=
  match validateRequest authorizedUsers cscsToChange nonAuthorizedCSCs with
  | .error e => .error (.validation e)
  | .ok targets =>
    let failed := autoFailedCscs outcome targets
    if 0 < failed.length then
      .error (.setAuthListFailures failed
        (targets.filter (fun t => decide (t ∉ failed))))
    else .ok ()

theorem autoFailedCscs_eq_filter (outcome : PyStr → Option PyStr)
    (ts : List PyStr) :
    autoFailedCscs outcome ts = ts.filter (fun t => (outcome t).isSome) := by
  induction ts with
  | nil => simp [autoFailedCscs]
  | cons t ts ih =>
    simp only [autoFailedCscs]
    cases h : outcome t <;> simp [h, ih]

/-- C2: for every request accepted by validation, the Immediate strategy's
handle_authorize_request returns normally iff no target failed, and when at
least one target failed it raises the aggregate error carrying exactly the
set of failed targets and the set of succeeded targets. -/
theorem auto_handler_raises_iff_some_failed (u c n : PyStr)
    (targets : List PyStr) (outcome : PyStr → Option PyStr)
    (h : validateRequest u c n = .ok targets) :
    (autoHandleAuthorizeRequest u c n outcome = .ok () ↔
      ∀ t ∈ targets, outcome t = none) ∧
    ((∃ t ∈ targets, (outcome t).isSome) →
      autoHandleAuthorizeRequest u c n outcome =
        .error (.setAuthListFailures
          (targets.filter (fun t => (outcome t).isSome))
          (targets.filter (fun t => (outcome t).isNone)))) := by
  unfold autoHandleAuthorizeRequest
  rw [h]
  simp only [autoFailedCscs_eq_filter]
  constructor
  · constructor
    · intro hok t ht
      by_contra hne
      have hsome : (outcome t).isSome := by
        cases hout : outcome t with
        | none => exact absurd hout hne
        | some m => simp
      have hpos : 0 < (targets.filter (fun t => (outcome t).isSome)).length :=
        List.length_pos.mpr (fun hnil => by
          have := List.filter_eq_nil_iff.mp hnil t ht
          rw [hsome] at this
          exact this rfl)
      rw [if_pos hpos] at hok
      exact Except.noConfusion hok
    · intro hall
      rw [if_neg]
      simp only [not_lt, Nat.le_zero, List.length_eq_zero]
      exact List.filter_eq_nil_iff.mpr (fun t ht => by simp [hall t ht])
  · rintro ⟨t, ht, hsome⟩
    have hpos : 0 < (targets.filter (fun t => (outcome t).isSome)).length :=
      List.length_pos.mpr (fun hnil => by
        have := List.filter_eq_nil_iff.mp hnil t ht
        rw [hsome] at this
        exact this rfl)
    rw [if_pos hpos]
    have hfs : targets.filter
        (fun x => decide (x ∉ targets.filter (fun t => (outcome t).isSome))) =
        targets.filter (fun t => (outcome t).isNone) := by
      apply List.filter_congr
      intro x hx
      cases houtx : outcome x <;> simp [List.mem_filter, hx, houtx]
    rw [hfs]

/-- Witness for C2: a concrete valid request with the single target
failing; the handler raises the aggregate error carrying the failed and
succeeded sets. -/
theorem auto_handler_raises_iff_some_failed_witness :
    autoHandleAuthorizeRequest [] "ATDome".data []
        (fun _ => some "timeout".data) =
      .error (.setAuthListFailures ["ATDome".data] []) :=
  ((auto_handler_raises_iff_some_failed [] "ATDome".data [] ["ATDome".data]
      (fun _ => some "timeout".data) rfl).2
    ⟨"ATDome".data, by simp, rfl⟩).trans rfl

/-- C5: for a non-empty usersToAuthorize / componentsToDeauthorize string
whose first character is `+` or `-`, exactly that one character is stripped
and the remainder is split on commas with each entry whitespace-stripped
and validated; for any other non-empty string no character is stripped, and
when the first character is not a comma it becomes part of the first
validated entry (authorize.py lines 179-191 /
base_authorize_handler.py lines 152-164). -/
theorem field_validation_strips_one_sign_char (s : PyStr) (c : Char)
    (cs : PyStr) (h : s = c :: cs) :
    ((c = '+' ∨ c = '-') →
      checkedEntries s = (splitComma cs).map pyStrip) ∧
    (¬(c = '+' ∨ c = '-') →
      checkedEntries s = (splitComma s).map pyStrip) ∧
    (¬(c = '+' ∨ c = '-') → c ≠ ',' →
      ∃ seg rest, splitComma s = (c :: seg) :: rest) := by
  subst h
  refine ⟨fun hpm => ?_, fun hn => ?_, fun hn hc => ?_⟩
  · rcases hpm with h1 | h1 <;> simp [checkedEntries, h1]
  · have hb : (c = '+' || c = '-') = false := by
      simp only [Bool.or_eq_false_iff, decide_eq_false_iff_not]
      exact ⟨fun h1 => hn (Or.inl h1), fun h1 => hn (Or.inr h1)⟩
    simp [checkedEntries, hb]
  · cases hrest : splitComma cs with
    | nil => exact absurd hrest (splitComma_ne_nil cs)
    | cons r rs =>
      refine ⟨r, rs, ?_⟩
      simp [splitComma, hc, hrest]

/-- Witness for C5: with a `+` prefix the checked entries come from the
remainder only; without a sign prefix they come from the whole string. -/
theorem field_validation_strips_one_sign_char_witness :
    checkedEntries "+a@b".data = (splitComma "a@b".data).map pyStrip ∧
    checkedEntries "x,y".data = (splitComma "x,y".data).map pyStrip :=
  ⟨(field_validation_strips_one_sign_char "+a@b".data '+' "a@b".data rfl).1
      (Or.inl rfl),
   (field_validation_strips_one_sign_char "x,y".data 'x' ",y".data rfl).2.1
      (by decide)⟩

/-- Python string comparison (code-point lexicographic), as used by
`sorted` on the succeeded / failed CSC name sets. -/
def lexLe : PyStr → PyStr → Bool
  | [], _ => true
  | _ :: _, [] => false
  | x :: xs, y :: ys => if x = y then lexLe xs ys else decide (x.toNat < y.toNat)

/-- Insert into a `lexLe`-sorted list. -/
def insertSortedStr (x : PyStr) : List PyStr → List PyStr
  | [] => [x]
  | y :: ys => if lexLe x y then x :: y :: ys else y :: insertSortedStr x ys

/-- Python `sorted` on a list of strings (insertion sort; the inputs here
are duplicate-free sets of CSC names, for which any sort agrees with
Python's stable sort). -/
def sortStrs : List PyStr → List PyStr
  | [] => []
  | x :: xs => insertSortedStr x (sortStrs xs)

/-- Python `", ".join(...)`. -/
def joinCommaSpace (xs : List PyStr) : PyStr :=
  List.intercalate [',', ' '] xs

/-- One authorization request record as returned by the REST server's
Authorized/Pending query (the fields read at lines 196-207 of
rest_authorize_handler.py). -/
structure RestRecord where
  id : Nat
  cscsToChange : PyStr
  authorizedUsers : PyStr
  unauthorizedCscs : PyStr
  requestedBy : PyStr
deriving DecidableEq

/-- The three fields of the PUT response that the code echoes back and
compares (lines 233-235 of rest_authorize_handler.py). -/
structure PutEcho where
  id : Nat
  status : ExecutionStatus
  message : PyStr
deriving DecidableEq

/-- execution_status computation (lines 208-215): initialized to
SUCCESSFUL and overwritten with FAILED when `len(csc_failed_messages) > 0`. -/
def executionStatusOf (out : DispatchOutcome) : ExecutionStatus :=
  if 0 < out.failed.length then .failed else .successful

/-- execution_message computation (lines 209-221): the sorted-succeeded
clause, plus the sorted-failed-keys clause when there are failures. -/
def executionMessage (out : DispatchOutcome) : PyStr :=
  "The following CSCs were updated correctly: ".data
      ++ joinCommaSpace (sortStrs out.succeeded) ++ ".".data
    ++ (if 0 < out.failed.length then
          " The following CSCs failed to update correctly: ".data
            ++ joinCommaSpace (sortStrs (out.failed.map Prod.fst)) ++ ".".data
        else [])

/-- The log.error calls for a PUT echo mismatch (lines 236-252): one log
when the echoed id differs; otherwise one log per differing
status/message.  Nothing is raised. -/
def echoMismatchLogs (respId : Nat) (status : ExecutionStatus)
    (msg : PyStr) (e : PutEcho) : List Event :=
  if e.id ≠ respId then [.logIdMismatch respId]
  else
    (if e.status ≠ status then [.logStatusMismatch respId] else [])
      ++ (if e.message ≠ msg then [.logMessageMismatch respId] else [])

/-- Processing of one approved-and-unprocessed record (the body of the
`for response in self.response` loop, lines 194-252): build the request
data, validate and dispatch it, PUT the execution status and message to the
record's `{id}/execute` endpoint, and compare the echoed response, logging
mismatches.  The `echo` oracle gives the body of the PUT response. -/
def processOneRecord (outcome : PyStr → Option PyStr)
    (echo : RestRecord → PutEcho) (r : RestRecord) :
    Except ValidationError (List Event) :=
  match validateRequest r.authorizedUsers r.cscsToChange r.unauthorizedCscs with
  | .error e => .error e
  | .ok targets =>
    let pr := processAuthorizeRequest targets outcome
    let status := executionStatusOf pr.1
    let msg := executionMessage pr.1
    .ok (pr.2 ++ [.putExecute r.id status msg]
          ++ echoMismatchLogs r.id status msg (echo r))

/-- process_approved_and_unprocessed_auth_requests (lines 179-252) after
the GET: process the returned records in list order; an uncaught exception
(only validation can raise here) aborts the whole loop. -/
def processApprovedRequests (outcome : PyStr → Option PyStr)
    (echo : RestRecord → PutEcho) :
    List RestRecord → Except ValidationError (List Event)
  | [] => .ok []
  | r :: rs =>
    match processOneRecord outcome echo r with
    | .error e => .error e
    | .ok evs =>
      match processApprovedRequests outcome echo rs with
      | .error e => .error e
      | .ok rest => .ok (evs ++ rest)

/-- Whether a record's embedded request passes validate_request. -/
def recordValidates (r : RestRecord) : Bool :=
  match validateRequest r.authorizedUsers r.cscsToChange r.unauthorizedCscs with
  | .ok _ => true
  | .error _ => false

/-- The events of a successful run (the error case does not occur under
the validation hypotheses used below). -/
def okEvents : Except ValidationError (List Event) → List Event
  | .ok evs => evs
  | .error _ => []

def isPutEvent : Event → Bool
  | .putExecute _ _ _ => true
  | _ => false

def putEvents (evs : List Event) : List Event :=
  evs.filter isPutEvent

def isLogEvent : Event → Bool
  | .logIdMismatch _ => true
  | .logStatusMismatch _ => true
  | .logMessageMismatch _ => true
  | _ => false

def nonLogEvents (evs : List Event) : List Event :=
  evs.filter (fun e => !isLogEvent e)

theorem validateRequest_ok_val (u c n : PyStr) (targets : List PyStr)
    (h : validateRequest u c n = .ok targets) :
    targets = cscsToCommand c := by
  unfold validateRequest at h
  rw [if_neg (cscsToCommand_ne_nil c)] at h
  cases h1 : findFirstFail cscNameIndexMatch (cscsToCommand c) <;> rw [h1] at h
  case none =>
    cases h2 : validateUsersField u <;> rw [h2] at h
    case error => exact Except.noConfusion h
    case ok =>
      cases h3 : validateCscsField n <;> rw [h3] at h
      case error => exact Except.noConfusion h
      case ok => exact (Except.ok.inj h).symm
  case some => exact Except.noConfusion h

theorem recordValidates_eq (r : RestRecord) (h : recordValidates r = true) :
    validateRequest r.authorizedUsers r.cscsToChange r.unauthorizedCscs =
      .ok (cscsToCommand r.cscsToChange) := by
  unfold recordValidates at h
  cases hv : validateRequest r.authorizedUsers r.cscsToChange r.unauthorizedCscs with
  | error e => rw [hv] at h; exact Bool.noConfusion h
  | ok v => exact congrArg Except.ok (validateRequest_ok_val _ _ _ _ hv)

theorem putEvents_append (a b : List Event) :
    putEvents (a ++ b) = putEvents a ++ putEvents b :=
  List.filter_append a b

theorem nonLogEvents_append (a b : List Event) :
    nonLogEvents (a ++ b) = nonLogEvents a ++ nonLogEvents b :=
  List.filter_append a b

theorem attemptedCscs_append (a b : List Event) :
    attemptedCscs (a ++ b) = attemptedCscs a ++ attemptedCscs b :=
  List.filterMap_append a b _

theorem putEvents_processAuthTargets (outcome : PyStr → Option PyStr)
    (ts : List PyStr) :
    putEvents (processAuthTargets outcome ts).2 = [] := by
  induction ts with
  | nil => simp [processAuthTargets, putEvents]
  | cons t ts ih =>
    simp only [processAuthTargets]
    cases h : outcome t <;> simpa [putEvents, isPutEvent] using ih

theorem nonLogEvents_processAuthTargets (outcome : PyStr → Option PyStr)
    (ts : List PyStr) :
    nonLogEvents (processAuthTargets outcome ts).2 =
      (processAuthTargets outcome ts).2 := by
  induction ts with
  | nil => simp [processAuthTargets, nonLogEvents]
  | cons t ts ih =>
    simp only [processAuthTargets]
    cases h : outcome t <;> simpa [nonLogEvents, isLogEvent] using ih

theorem putEvents_echoMismatchLogs (respId : Nat) (status : ExecutionStatus)
    (msg : PyStr) (e : PutEcho) :
    putEvents (echoMismatchLogs respId status msg e) = [] := by
  unfold echoMismatchLogs
  split
  · simp [putEvents, isPutEvent]
  · split <;> split <;> simp [putEvents, isPutEvent]

theorem nonLogEvents_echoMismatchLogs (respId : Nat)
    (status : ExecutionStatus) (msg : PyStr) (e : PutEcho) :
    nonLogEvents (echoMismatchLogs respId status msg e) = [] := by
  unfold echoMismatchLogs
  split
  · simp [nonLogEvents, isLogEvent]
  · split <;> split <;> simp [nonLogEvents, isLogEvent]

theorem attemptedCscs_echoMismatchLogs (respId : Nat)
    (status : ExecutionStatus) (msg : PyStr) (e : PutEcho) :
    attemptedCscs (echoMismatchLogs respId status msg e) = [] := by
  unfold echoMismatchLogs
  split
  · simp [attemptedCscs]
  · split <;> split <;> simp [attemptedCscs]

theorem processAuthorizeRequest_events (targets : List PyStr)
    (outcome : PyStr → Option PyStr) :
    (processAuthorizeRequest targets outcome).2 =
      (processAuthTargets outcome targets).2 := rfl

theorem putEvents_dispatch (targets : List PyStr)
    (outcome : PyStr → Option PyStr) :
    putEvents (processAuthorizeRequest targets outcome).2 = [] := by
  rw [processAuthorizeRequest_events]
  exact putEvents_processAuthTargets outcome targets

theorem nonLogEvents_dispatch (targets : List PyStr)
    (outcome : PyStr → Option PyStr) :
    nonLogEvents (processAuthorizeRequest targets outcome).2 =
      (processAuthorizeRequest targets outcome).2 := by
  rw [processAuthorizeRequest_events]
  exact nonLogEvents_processAuthTargets outcome targets

theorem attemptedCscs_dispatch (targets : List PyStr)
    (outcome : PyStr → Option PyStr) :
    attemptedCscs (processAuthorizeRequest targets outcome).2 = targets := by
  rw [processAuthorizeRequest_events]
  exact processAuthTargets_attempts outcome targets

theorem executionStatusOf_eq (out : DispatchOutcome) :
    executionStatusOf out =
      if out.failed = [] then ExecutionStatus.successful
      else ExecutionStatus.failed := by
  cases h : out.failed <;> simp [executionStatusOf, h]

theorem executionMessage_eq (out : DispatchOutcome) :
    executionMessage out =
      "The following CSCs were updated correctly: ".data
          ++ joinCommaSpace (sortStrs out.succeeded) ++ ".".data
        ++ (if out.failed = [] then []
            else " The following CSCs failed to update correctly: ".data
              ++ joinCommaSpace (sortStrs (out.failed.map Prod.fst)) ++ ".".data) := by
  cases h : out.failed <;> simp [executionMessage, h]

/-- C6: for every batch of Approved/execution-Pending records whose
embedded requests pass validation, the reconciliation loop runs to
completion, processing the records in list order: the setAuthList attempts
are exactly those of each record's validated targets, record by record, and
the PUT subtrace has exactly one PUT per record, in list order, to that
record's execute endpoint, with executionStatus Successful iff no target
failed and executionMessage equal to the sorted-succeeded clause followed,
when failures exist, by the sorted-failed clause
(rest_authorize_handler.py lines 179-231). -/
theorem reconcile_processes_records_in_order (records : List RestRecord)
    (outcome : PyStr → Option PyStr) (echo : RestRecord → PutEcho)
    (h : ∀ r ∈ records, recordValidates r = true) :
    ∃ evs, processApprovedRequests outcome echo records = .ok evs ∧
      putEvents evs = records.map (fun r =>
        Event.putExecute r.id
          (if (processAuthorizeRequest (cscsToCommand r.cscsToChange)
                outcome).1.failed = []
            then ExecutionStatus.successful else ExecutionStatus.failed)
          ("The following CSCs were updated correctly: ".data
            ++ joinCommaSpace (sortStrs (processAuthorizeRequest
                (cscsToCommand r.cscsToChange) outcome).1.succeeded)
            ++ ".".data
            ++ (if (processAuthorizeRequest (cscsToCommand r.cscsToChange)
                    outcome).1.failed = [] then []
                else " The following CSCs failed to update correctly: ".data
                  ++ joinCommaSpace (sortStrs ((processAuthorizeRequest
                      (cscsToCommand r.cscsToChange) outcome).1.failed.map
                        Prod.fst))
                  ++ ".".data))) ∧
      attemptedCscs evs =
        records.flatMap (fun r => cscsToCommand r.cscsToChange) := by
  induction records with
  | nil => exact ⟨[], rfl, rfl, rfl⟩
  | cons r rs ih =>
    obtain ⟨evs, h1, h2, h3⟩ := ih (fun x hx => h x (List.mem_cons_of_mem r hx))
    have hr := recordValidates_eq r (h r (List.mem_cons_self r rs))
    simp only [processApprovedRequests, processOneRecord, hr, h1]
    refine ⟨_, rfl, ?_, ?_⟩
    · rw [putEvents_append, putEvents_append, putEvents_append,
        putEvents_dispatch, putEvents_echoMismatchLogs, h2, List.map_cons]
      simp [putEvents, isPutEvent, executionStatusOf_eq, executionMessage_eq]
    · rw [attemptedCscs_append, attemptedCscs_append, attemptedCscs_append,
        attemptedCscs_dispatch, attemptedCscs_echoMismatchLogs, h3,
        List.flatMap_cons]
      simp [attemptedCscs]

/-- A concrete Approved/Pending record with one valid target. -/
def testRecord : RestRecord :=
  { id := 0, cscsToChange := "Test:5".data, authorizedUsers := [],
    unauthorizedCscs := [], requestedBy := "op@host".data }

/-- Witness for C6: one record with one reachable target yields exactly one
PUT with executionStatus Successful, after the target's setAuthList call. -/
theorem reconcile_processes_records_in_order_witness :
    putEvents (okEvents (processApprovedRequests (fun _ => none)
        (fun _ => ⟨0, ExecutionStatus.successful, []⟩) [testRecord])) =
      [Event.putExecute 0 ExecutionStatus.successful
        (executionMessage (processAuthorizeRequest
          (cscsToCommand testRecord.cscsToChange) (fun _ => none)).1)] ∧
    attemptedCscs (okEvents (processApprovedRequests (fun _ => none)
        (fun _ => ⟨0, ExecutionStatus.successful, []⟩) [testRecord])) =
      ["Test:5".data] := by
  obtain ⟨evs, h1, h2, h3⟩ := reconcile_processes_records_in_order [testRecord]
    (fun _ => none) (fun _ => ⟨0, ExecutionStatus.successful, []⟩) (by decide)
  rw [h1]
  constructor
  · rw [show okEvents (Except.ok evs) = evs from rfl, h2]
    decide
  · rw [show okEvents (Except.ok evs) = evs from rfl, h3]
    decide

/-- C7: a PUT response whose echoed id/status/message differs from what was
sent only produces log events: for any two echo behaviors the reconciliation
run still completes and its non-log trace (setAuthList calls and PUTs for
every record in the batch) is identical (rest_authorize_handler.py lines
232-252). -/
theorem put_echo_mismatch_only_logged (records : List RestRecord)
    (outcome : PyStr → Option PyStr) (echo1 echo2 : RestRecord → PutEcho)
    (h : ∀ r ∈ records, recordValidates r = true) :
    ∃ evs1 evs2,
      processApprovedRequests outcome echo1 records = .ok evs1 ∧
      processApprovedRequests outcome echo2 records = .ok evs2 ∧
      nonLogEvents evs1 = nonLogEvents evs2 := by
  induction records with
  | nil => exact ⟨[], [], rfl, rfl, rfl⟩
  | cons r rs ih =>
    obtain ⟨evs1, evs2, h1, h2, h3⟩ :=
      ih (fun x hx => h x (List.mem_cons_of_mem r hx))
    have hr := recordValidates_eq r (h r (List.mem_cons_self r rs))
    simp only [processApprovedRequests, processOneRecord, hr, h1, h2]
    refine ⟨_, _, rfl, rfl, ?_⟩
    rw [nonLogEvents_append, nonLogEvents_append, nonLogEvents_append,
      nonLogEvents_append, nonLogEvents_append, nonLogEvents_append,
      nonLogEvents_dispatch, nonLogEvents_echoMismatchLogs,
      nonLogEvents_echoMismatchLogs, h3]

/-- Witness for C7: a matching echo and a wildly mismatching echo give the
same non-log trace on a concrete one-record batch. -/
theorem put_echo_mismatch_only_logged_witness :
    nonLogEvents (okEvents (processApprovedRequests (fun _ => none)
        (fun _ => ⟨0, ExecutionStatus.successful,
          executionMessage (processAuthorizeRequest
            (cscsToCommand testRecord.cscsToChange) (fun _ => none)).1⟩)
        [testRecord])) =
      nonLogEvents (okEvents (processApprovedRequests (fun _ => none)
        (fun _ => ⟨999, ExecutionStatus.failed, []⟩) [testRecord])) := by
  obtain ⟨evs1, evs2, h1, h2, h3⟩ := put_echo_mismatch_only_logged [testRecord]
    (fun _ => none)
    (fun _ => ⟨0, ExecutionStatus.successful,
      executionMessage (processAuthorizeRequest
        (cscsToCommand testRecord.cscsToChange) (fun _ => none)).1⟩)
    (fun _ => ⟨999, ExecutionStatus.failed, []⟩) (by decide)
  rw [h1, h2]
  exact h3

/-- Status of one asyncio task.  `asyncio.Future.cancel()` only *requests*
cancellation: a running task moves to `cancelRequested` and keeps being a
live (not done) task until the event loop next schedules it, at which point
the CancelledError is raised in it and it finishes (`done`) without
executing any further loop-body code. -/
inductive TaskStatus where
  | running : TaskStatus
  | cancelRequested : TaskStatus
  | done : TaskStatus
deriving DecidableEq

/-- The poller-relevant state of a RestAuthorizeHandler: the task table of
the event loop (task id, status), the id of `self.periodic_task`, and a
fresh-id counter. -/
structure PollerState where
  tasks : List (Nat × TaskStatus)
  periodic : Nat
  nextId : Nat
deriving DecidableEq

/-- Initial state: `self.periodic_task = utils.make_done_future()`
(base_authorize_handler.py line 60). -/
def pollerInit : PollerState :=
  { tasks := [(0, TaskStatus.done)], periodic := 0, nextId := 1 }

/-- `task.cancel()`: request cancellation of the task with the given id; a
running task becomes cancel-requested, a done (or already cancel-requested)
task is unaffected.  The task is NOT awaited and does not become done. -/
def cancelTask (id : Nat) (tasks : List (Nat × TaskStatus)) :
    List (Nat × TaskStatus) :=
  tasks.map (fun p =>
    if p.1 = id ∧ p.2 = TaskStatus.running then (p.1, TaskStatus.cancelRequested)
    else p)

/-- start (rest_authorize_handler.py lines 274-280):
`self.periodic_task.cancel()` then
`self.periodic_task = asyncio.create_task(...)`.  No await happens between
the two statements (create_client_session suspends on nothing), so the old
task cannot run — and hence cannot finish — before the new task exists. -/
def pollerStart (s : PollerState) : PollerState :=
  { tasks := cancelTask s.periodic s.tasks ++ [(s.nextId, TaskStatus.running)],
    periodic := s.nextId,
    nextId := s.nextId + 1 }

/-- stop (lines 282-285): `self.periodic_task.cancel()`. -/
def pollerStop (s : PollerState) : PollerState :=
  { s with tasks := cancelTask s.periodic s.tasks }

/-- Observable work of the polling task. -/
inductive PollerEvent where
  | reconcileInvoked (taskId : Nat) : PollerEvent
deriving DecidableEq

def taskStatus (tasks : List (Nat × TaskStatus)) (i : Nat) :
    Option TaskStatus :=
  (tasks.find? (fun p => decide (p.1 = i))).map Prod.snd

/-- One scheduling of task `i` by the event loop: a running poller task
performs one iteration of perform_periodic_task (one reconciliation
invocation, then sleeps, staying running); a cancel-requested task receives
its CancelledError and finishes without doing any work; a done or unknown
task does nothing. -/
def stepTask (s : PollerState) (i : Nat) : PollerState × List PollerEvent :=
  match taskStatus s.tasks i with
  | some TaskStatus.running => (s, [.reconcileInvoked i])
  | some TaskStatus.cancelRequested =>
    ({ s with tasks := s.tasks.map (fun p =>
        if p.1 = i then (p.1, TaskStatus.done) else p) }, [])
  | _ => (s, [])

/-- The operations the handler / event loop can interleave. -/
inductive PollerOp where
  | start : PollerOp
  | stop : PollerOp
  | step (i : Nat) : PollerOp

def runPollerFrom (s : PollerState) : List PollerOp → PollerState × List PollerEvent
  | [] => (s, [])
  | PollerOp.start :: ops => runPollerFrom (pollerStart s) ops
  | PollerOp.stop :: ops => runPollerFrom (pollerStop s) ops
  | PollerOp.step i :: ops =>
    let r := stepTask s i
    let rest := runPollerFrom r.1 ops
    (rest.1, r.2 ++ rest.2)

def runPollerOps (ops : List PollerOp) : PollerState × List PollerEvent :=
  runPollerFrom pollerInit ops

/-- Tasks that are live (not finished). -/
def liveCount (s : PollerState) : Nat :=
  (s.tasks.filter (fun p => decide (p.2 ≠ TaskStatus.done))).length

/-- Tasks that are actively running (not cancel-requested, not done). -/
def runningCount (s : PollerState) : Nat :=
  (s.tasks.filter (fun p => decide (p.2 = TaskStatus.running))).length

/-- Invariant of the poller state: task ids are unique and fresh, and only
the current `self.periodic_task` can be in the running state. -/
def PollerInv (s : PollerState) : Prop :=
  (s.tasks.map Prod.fst).Nodup ∧
  (∀ p ∈ s.tasks, p.1 < s.nextId) ∧
  (∀ p ∈ s.tasks, p.2 = TaskStatus.running → p.1 = s.periodic)

theorem cancelTask_map_fst (id : Nat) (tasks : List (Nat × TaskStatus)) :
    (cancelTask id tasks).map Prod.fst = tasks.map Prod.fst := by
  induction tasks with
  | nil => rfl
  | cons q qs ih =>
    simp only [cancelTask, List.map_cons] at ih ⊢
    split <;> simp_all

theorem cancelTask_no_running (id : Nat) (tasks : List (Nat × TaskStatus))
    (h : ∀ p ∈ tasks, p.2 = TaskStatus.running → p.1 = id) :
    ∀ p ∈ cancelTask id tasks, p.2 ≠ TaskStatus.running := by
  intro p hp
  rw [cancelTask, List.mem_map] at hp
  obtain ⟨q, hq, hpq⟩ := hp
  by_cases hc : q.1 = id ∧ q.2 = TaskStatus.running
  · rw [if_pos hc] at hpq
    rw [← hpq]
    simp
  · rw [if_neg hc] at hpq
    rw [← hpq]
    intro hrun
    exact hc ⟨h q hq hrun, hrun⟩

theorem cancelTask_mem_fst_snd (id : Nat) (tasks : List (Nat × TaskStatus))
    (p : Nat × TaskStatus) (hp : p ∈ cancelTask id tasks) :
    ∃ q ∈ tasks, p.1 = q.1 := by
  rw [cancelTask, List.mem_map] at hp
  obtain ⟨q, hq, hpq⟩ := hp
  refine ⟨q, hq, ?_⟩
  by_cases hc : q.1 = id ∧ q.2 = TaskStatus.running
  · rw [if_pos hc] at hpq; rw [← hpq]
  · rw [if_neg hc] at hpq; rw [← hpq]

theorem pollerInv_start (s : PollerState) (h : PollerInv s) :
    PollerInv (pollerStart s) := by
  obtain ⟨hnd, hlt, hrun⟩ := h
  refine ⟨?_, ?_, ?_⟩
  · simp only [pollerStart, List.map_append, cancelTask_map_fst, List.map_cons,
      List.map_nil]
    rw [List.nodup_append]
    refine ⟨hnd, List.nodup_singleton _, ?_⟩
    intro a ha hb
    rw [List.mem_singleton] at hb
    rw [List.mem_map] at ha
    obtain ⟨q, hq, hqa⟩ := ha
    have := hlt q hq
    omega
  · intro p hp
    simp only [pollerStart, List.mem_append, List.mem_singleton] at hp
    rcases hp with hp | hp
    · obtain ⟨q, hq, hfst⟩ := cancelTask_mem_fst_snd s.periodic s.tasks p hp
      have := hlt q hq
      simp only [pollerStart]
      omega
    · simp [pollerStart, hp]
  · intro p hp hrun2
    simp only [pollerStart, List.mem_append, List.mem_singleton] at hp
    rcases hp with hp | hp
    · exact absurd hrun2 (cancelTask_no_running s.periodic s.tasks hrun p hp)
    · simp [pollerStart, hp]

theorem pollerInv_stop (s : PollerState) (h : PollerInv s) :
    PollerInv (pollerStop s) := by
  obtain ⟨hnd, hlt, hrun⟩ := h
  refine ⟨?_, ?_, ?_⟩
  · simpa [pollerStop, cancelTask_map_fst] using hnd
  · intro p hp
    obtain ⟨q, hq, hfst⟩ := cancelTask_mem_fst_snd s.periodic s.tasks p hp
    have := hlt q hq
    simp only [pollerStop]
    omega
  · intro p hp hrun2
    exact absurd hrun2 (cancelTask_no_running s.periodic s.tasks hrun p hp)

theorem pollerInv_step (s : PollerState) (i : Nat) (h : PollerInv s) :
    PollerInv (stepTask s i).1 := by
  obtain ⟨hnd, hlt, hrun⟩ := h
  unfold stepTask
  cases hst : taskStatus s.tasks i with
  | none => exact ⟨hnd, hlt, hrun⟩
  | some st =>
    cases st with
    | running => exact ⟨hnd, hlt, hrun⟩
    | done => exact ⟨hnd, hlt, hrun⟩
    | cancelRequested =>
      refine ⟨?_, ?_, ?_⟩
      · have : (s.tasks.map (fun p =>
            if p.1 = i then (p.1, TaskStatus.done) else p)).map Prod.fst =
            s.tasks.map Prod.fst := by
          induction s.tasks with
          | nil => rfl
          | cons q qs ih =>
            simp only [List.map_cons] at ih ⊢
            split <;> simp_all
        simpa [this] using hnd
      · intro p hp
        simp only [List.mem_map] at hp
        obtain ⟨q, hq, hpq⟩ := hp
        have := hlt q hq
        by_cases hc : q.1 = i
        · rw [if_pos hc] at hpq
          rw [← hpq]
          simpa using this
        · rw [if_neg hc] at hpq
          rw [← hpq]
          simpa using this
      · intro p hp hrun2
        simp only [List.mem_map] at hp
        obtain ⟨q, hq, hpq⟩ := hp
        by_cases hc : q.1 = i
        · rw [if_pos hc] at hpq
          rw [← hpq] at hrun2
          exact absurd hrun2 (by simp)
        · rw [if_neg hc] at hpq
          rw [← hpq] at hrun2 ⊢
          exact hrun q hq hrun2

theorem pollerInv_run (s : PollerState) (ops : List PollerOp)
    (h : PollerInv s) : PollerInv (runPollerFrom s ops).1 := by
  induction ops generalizing s with
  | nil => exact h
  | cons op ops ih =>
    cases op with
    | start => exact ih _ (pollerInv_start s h)
    | stop => exact ih _ (pollerInv_stop s h)
    | step i => exact ih _ (pollerInv_step s i h)

theorem pollerInv_init : PollerInv pollerInit := by
  refine ⟨by decide, ?_, ?_⟩ <;> intro p hp <;> simp [pollerInit] at hp <;>
    simp [hp, pollerInit]

theorem nodup_all_eq_length_le_one (l : List Nat) (a : Nat)
    (hnd : l.Nodup) (hall : ∀ x ∈ l, x = a) : l.length ≤ 1 := by
  match l with
  | [] => simp
  | [x] => simp
  | x :: y :: t =>
    exfalso
    have hx := hall x (by simp)
    have hy := hall y (by simp)
    rw [List.nodup_cons] at hnd
    exact hnd.1 (by simp [hx, hy])

theorem pollerInv_runningCount (s : PollerState) (h : PollerInv s) :
    runningCount s ≤ 1 := by
  obtain ⟨hnd, _, hrun⟩ := h
  unfold runningCount
  have hlen : (s.tasks.filter
      (fun p => decide (p.2 = TaskStatus.running))).length =
      ((s.tasks.filter
        (fun p => decide (p.2 = TaskStatus.running))).map Prod.fst).length := by
    rw [List.length_map]
  rw [hlen]
  apply nodup_all_eq_length_le_one _ s.periodic
  · exact List.Nodup.sublist
      (List.Sublist.map Prod.fst (List.filter_sublist s.tasks)) hnd
  · intro x hx
    rw [List.mem_map] at hx
    obtain ⟨p, hp, hpx⟩ := hx
    rw [List.mem_filter, decide_eq_true_eq] at hp
    rw [← hpx]
    exact hrun p hp.1 hp.2

/-- Counterexample to C8 as stated: `start` performs
`self.periodic_task.cancel()` — a cancellation *request* — and immediately
creates the new task without awaiting the old one, so right after two
consecutive `start` calls the first polling task is still live (cancel
requested but not finished) alongside the new running one: two live tasks,
refuting both "first fully cancels the previous task before spawning the
new one" and "at most one polling task is ever live". -/
theorem start_does_not_await_cancellation :
    liveCount (runPollerOps [PollerOp.start, PollerOp.start]).1 = 2 ∧
    taskStatus (runPollerOps [PollerOp.start, PollerOp.start]).1.tasks 1 =
      some TaskStatus.cancelRequested ∧
    taskStatus (runPollerOps [PollerOp.start, PollerOp.start]).1.tasks 2 =
      some TaskStatus.running := by decide

/-- Amended C8: after any sequence of start, stop and event-loop
scheduling steps, at most one polling task is in the running state (the
superseded task is merely cancel-requested), and a cancel-requested task
never performs another reconciliation invocation when it is next
scheduled — it just finishes.  So two reconciliation loops never both stay
active, but the old task does remain live until its next scheduling. -/
theorem at_most_one_running_poller_task (ops : List PollerOp) :
    runningCount (runPollerOps ops).1 ≤ 1 ∧
    ∀ s i, taskStatus s.tasks i = some TaskStatus.cancelRequested →
      (stepTask s i).2 = [] := by
  constructor
  · exact pollerInv_runningCount _ (pollerInv_run pollerInit ops pollerInv_init)
  · intro s i h
    simp [stepTask, h]

/-- Witness for the amended C8 at the double-start sequence. -/
theorem at_most_one_running_poller_task_witness :
    runningCount (runPollerOps [PollerOp.start, PollerOp.start]).1 ≤ 1 ∧
    (stepTask (runPollerOps [PollerOp.start, PollerOp.start]).1 1).2 = [] :=
  ⟨(at_most_one_running_poller_task [PollerOp.start, PollerOp.start]).1,
   (at_most_one_running_poller_task [PollerOp.start, PollerOp.start]).2
     (runPollerOps [PollerOp.start, PollerOp.start]).1 1 (by decide)⟩

/-- The in-memory state of the External-Service Client relevant to
authentication: the stored bearer token (rest_authorize_handler.py,
`self.token`, initialized to the empty string). -/
structure RestClientState where
  token : PyStr
deriving DecidableEq

/-- The observable parts of the token-endpoint HTTP response: its status
code and the optional "token" field of its JSON body. -/
structure TokenResponse where
  status : Nat
  tokenField : Option PyStr
deriving DecidableEq

/-- The RuntimeErrors authenticate can raise: from _get_response on a
non-OK HTTP status (lines 119-126), or "Got unexpected response ..." when
the 200 body lacks the token field (line 151). -/
inductive AuthErr where
  | httpStatus (status : Nat) : AuthErr
  | unexpectedResponse : AuthErr
deriving DecidableEq

/-- authenticate (rest_authorize_handler.py lines 128-151): on HTTP 200,
store the token field if present; otherwise set `self.token = ""`, log and
raise; on a non-200 status _get_response raises before the token is
touched. -/
def authenticate (st : RestClientState) (resp : TokenResponse) :
    RestClientState × Except AuthErr Unit :=
  if resp.status = 200 then
    match resp.tokenField with
    | some t => ({ token := t }, .ok ())
    | none => ({ token := [] }, .error .unexpectedResponse)
  else (st, .error (.httpStatus resp.status))

/-- C10: whenever the token endpoint answers HTTP 200 without a "token"
field, authenticate resets the stored token to the empty string and raises,
regardless of any previously stored token. -/
theorem failed_authentication_clears_token (st : RestClientState)
    (resp : TokenResponse) (h1 : resp.status = 200)
    (h2 : resp.tokenField = none) :
    (authenticate st resp).1.token = [] ∧
    (authenticate st resp).2 = .error .unexpectedResponse := by
  unfold authenticate
  rw [h2, if_pos h1]
  exact ⟨rfl, rfl⟩

/-- Witness for C10: a previously acquired token is cleared. -/
theorem failed_authentication_clears_token_witness :
    (authenticate ⟨"oldtoken".data⟩ ⟨200, none⟩).1.token = [] ∧
    (authenticate ⟨"oldtoken".data⟩ ⟨200, none⟩).2 =
      .error .unexpectedResponse :=
  failed_authentication_clears_token ⟨"oldtoken".data⟩ ⟨200, none⟩ rfl rfl
